import Mathlib

/-!
Verification of the access-control and resource-lifecycle core of the
publish-obsidian-plugin repository: a short-link note-publishing service
consisting of an Express server (`server/src/app.ts`, `routes/posts.ts`,
`middleware/auth.ts`, `middleware/errorHandler.ts`, `models/post.ts`,
`utils/idGenerator.ts`) and an Obsidian client.

The embedding below translates the server code.  Strings are Lean
`String`s, request bodies are explicit structures, the SQLite `posts`
table is a `List Post`, and wall-clock time (`datetime('now')`,
`new Date().toISOString()`) is an abstract `Nat` passed in by the caller.
External randomness (`Math.random`, `uuidv4`) is passed in as explicit
parameters.
-/

namespace Pub

/-- The whitespace class of JavaScript regular expressions, used by the
validator.js trim sanitizer and by the Bearer-token regex in
middleware/auth.ts: tab, line feed, vertical tab, form feed, carriage
return, space, no-break space, ogham space mark, the U+2000..U+200A spaces,
line separator, paragraph separator, narrow no-break space, medium
mathematical space, ideographic space and the byte-order mark. -/
def isJsWs (c : Char) : Bool :=
  c = ' ' || c = '\t' || c = '\n' || c = '\r' ||
  c.val.toNat = 0x0B || c.val.toNat = 0x0C ||
  c.val.toNat = 0xA0 || c.val.toNat = 0x1680 ||
  (0x2000 ≤ c.val.toNat && c.val.toNat ≤ 0x200A) ||
  c.val.toNat = 0x2028 || c.val.toNat = 0x2029 ||
  c.val.toNat = 0x202F || c.val.toNat = 0x205F ||
  c.val.toNat = 0x3000 || c.val.toNat = 0xFEFF

/-- validator.js `ltrim` with default chars: drop the leading `\s` run. -/
def ltrim (l : List Char) : List Char := l.dropWhile isJsWs

/-- validator.js `rtrim` with default chars: drop the trailing `\s` run. -/
def rtrim (l : List Char) : List Char := (l.reverse.dropWhile isJsWs).reverse

/-- validator.js `trim` (the `.trim()` sanitizer of express-validator):
`rtrim ∘ ltrim`. -/
def jsTrim (l : List Char) : List Char := rtrim (ltrim l)

/-- `jsTrim` lifted to `String`. -/
def jsTrimS (s : String) : String := ⟨jsTrim s.data⟩

/-- The character map of validator.js `escape` (the `.escape()` sanitizer of
express-validator).  The source performs eight sequential global `replace`
calls, `&` first; since no produced entity contains a character that a later
`replace` rewrites, that sequence acts on each source character
independently, which is what this per-character map expresses. -/
def escChar (c : Char) : List Char :=
  if c = '&' then "&amp;".data
  else if c = '"' then "&quot;".data
  else if c = '\'' then "&#x27;".data
  else if c = '<' then "&lt;".data
  else if c = '>' then "&gt;".data
  else if c = '/' then "&#x2F;".data
  else if c = '\\' then "&#x5C;".data
  else if c = '`' then "&#96;".data
  else [c]

/-- validator.js `escape` over a character list. -/
def escapeList (l : List Char) : List Char := l.flatMap escChar

/-- validator.js `escape` lifted to `String`. -/
def escapeS (s : String) : String := ⟨escapeList s.data⟩

/-- What the `title` validation chain of `routes/posts.ts` stores:
`body('title').isLength(...).trim().escape()` — the raw title trimmed and
then HTML-entity escaped. -/
def sanitizeTitle (s : String) : String := escapeS (jsTrimS s)

/-- What the `content` validation chain of `routes/posts.ts` stores:
`body('content').isLength(...).trim()` — trimmed, not escaped. -/
def sanitizeContent (s : String) : String := jsTrimS s

/-- express-validator `isLength {min, max}` on a string value. -/
def lenBetween (s : String) (lo hi : Nat) : Bool :=
  lo ≤ s.length && s.length ≤ hi

namespace IDGenerator

/-- `IDGenerator.CHARS` from `utils/idGenerator.ts`: the id alphabet,
excluding visually confusable characters. -/
def CHARS : String := "abcdefghijkmnpqrstuvwxyzABCDEFGHJKMNPQRSTUVWXYZ23456789"

/-- `IDGenerator.ID_LENGTH`. -/
def ID_LENGTH : Nat := 8

/-- `IDGenerator.generate`: eight characters of `CHARS`, each selected by
`Math.floor(Math.random() * CHARS.length)`.  The eight random draws are
modelled as a function `r` giving, for each position, an index below
`CHARS.length` (exactly the range `Math.floor` produces on `[0,1)`). -/
def generate (r : Fin ID_LENGTH → Fin CHARS.data.length) : String :=
  ⟨(List.finRange ID_LENGTH).map (fun i => CHARS.data.get (r i))⟩

/-- `IDGenerator.isValidFormat`: length exactly `ID_LENGTH` and every
character in `CHARS`. -/
def isValidFormat (id : String) : Bool :=
  id.length == ID_LENGTH && id.data.all (fun c => CHARS.data.contains c)

/-- One character slot of the UUID-v4 regex
`^[0-9a-f]{8}-[0-9a-f]{4}-4[0-9a-f]{3}-[89ab][0-9a-f]{3}-[0-9a-f]{12}$/i`
used by `IDGenerator.isValidSecret` (`i` flag: hex digits and the
variant nibble are case-insensitive). -/
def uuidSlot (i : Nat) (c : Char) : Bool :=
  if i = 8 || i = 13 || i = 18 || i = 23 then c = '-'
  else if i = 14 then c = '4'
  else if i = 19 then
    c = '8' || c = '9' || c = 'a' || c = 'b' || c = 'A' || c = 'B'
  else
    (('0' ≤ c && c ≤ '9') || ('a' ≤ c && c ≤ 'f') || ('A' ≤ c && c ≤ 'F'))

/-- `IDGenerator.isValidSecret`: the string matches the UUID-v4 regex. -/
def isValidSecret (s : String) : Bool :=
  s.length == 36 &&
    (List.range 36).all (fun i =>
      match s.data.get? i with
      | some c => uuidSlot i c
      | none => false)

/-- `IDGenerator.generateUnique`, instrumented with the number of
`checkExists` invocations.  `gen i` is the id produced by the `i`-th call of
`IDGenerator.generate` (`i` starting at `start`); the loop runs while
`attempts < maxAttempts` (the fuel argument), returning the first generated
id for which `checkExists` reports a miss.  The first component is `none`
exactly when every attempt collided (the thrown
`Failed to generate unique ID after ... attempts` error); the second
component counts the `checkExists` calls made. -/
def generateUniqueFrom (gen : Nat → String) (check : String → Bool)
    (start : Nat) : Nat → Option String × Nat
  | 0 => (none, 0)
  | Nat.succ n =>
    let id := gen start
    if check id then
      let r := generateUniqueFrom gen check (start + 1) n
      (r.1, r.2 + 1)
    else
      (some id, 1)

/-- `IDGenerator.generateUnique` with attempt counter, from attempt 0. -/
def generateUnique (gen : Nat → String) (check : String → Bool)
    (maxAttempts : Nat) : Option String × Nat :=
  generateUniqueFrom gen check 0 maxAttempts

/-- `IDGenerator.generateUnique` as the route sees it: the generated id, or
the message of the thrown `Error` on exhaustion. -/
def generateUniqueE (gen : Nat → String) (check : String → Bool)
    (maxAttempts : Nat) : Except String String :=
  match (generateUnique gen check maxAttempts).1 with
  | some id => .ok id
  | none =>
    .error ("Failed to generate unique ID after " ++ toString maxAttempts
      ++ " attempts")

end IDGenerator

/-- A row of the SQLite `posts` table (`shared/types.ts` `Post`;
timestamps abstracted to `Nat`). -/
structure Post where
  id : String
  secret : String
  title : String
  content : String
  created_at : Nat
  updated_at : Nat
deriving DecidableEq, Repr

namespace PostModel

/-- `PostModel.exists`: `SELECT 1 FROM posts WHERE id = ? LIMIT 1`. -/
def existsId (store : List Post) (id : String) : Bool :=
  store.any (fun p => p.id == id)

/-- `PostModel.findById`: `SELECT * FROM posts WHERE id = ?` (first row). -/
def findById (store : List Post) (id : String) : Option Post :=
  store.find? (fun p => p.id == id)

/-- The storage error surfaced by sqlite on a UNIQUE / PRIMARY KEY
violation (`err.code === 'SQLITE_CONSTRAINT'`). -/
inductive DbError
  | sqliteConstraint
deriving DecidableEq, Repr

/-- Row selector of the mutation statements:
`WHERE id = ? AND secret = ?`. -/
def rowMatch (id secret : String) (p : Post) : Bool :=
  p.id == id && p.secret == secret

/-- `PostModel.create`: `INSERT INTO posts ... VALUES (?,?,?,?,
datetime('now'), datetime('now'))`, then `findById` to return the created
row.  The `id TEXT PRIMARY KEY` column makes the insert fail with
`SQLITE_CONSTRAINT` when a row with the same id already exists. -/
def create (now : Nat) (store : List Post) (id secret title content : String) :
    Except DbError (List Post × Post) :=
  if store.any (fun p => p.id == id) then
    .error .sqliteConstraint
  else
    let p : Post := ⟨id, secret, title, content, now, now⟩
    .ok (store ++ [p], p)

/-- `PostModel.update`: `UPDATE posts SET title = ?, content = ?,
updated_at = datetime('now') WHERE id = ? AND secret = ?`; the boolean is
`result.changes ≠ 0`. -/
def update (now : Nat) (store : List Post) (id secret title content : String) :
    List Post × Bool :=
  (store.map (fun p =>
      if rowMatch id secret p then
        { p with title := title, content := content, updated_at := now }
      else p),
    store.any (rowMatch id secret))

/-- `PostModel.delete`: `DELETE FROM posts WHERE id = ? AND secret = ?`;
the boolean is `result.changes ≠ 0`. -/
def delete (store : List Post) (id secret : String) : List Post × Bool :=
  (store.filter (fun p => !(rowMatch id secret p)),
    store.any (rowMatch id secret))

end PostModel

/-- The JSON bodies the server can send.  `empty` is the body-less
`res.status(204).send()`; `validationFailed` is the shape produced by
`handleValidationErrors` in `routes/posts.ts`; `errObj` is the uniform
shape produced by `middleware/errorHandler.ts`; `errObjNoTs` is the
timestamp-less shape the auth middleware sends directly; `created` is the
`201 res.json({ id, secret })` of the create route; `postJson` is the JSON
branch of the read route; `html` is its HTML branch; `health` is
`GET /health`. -/
inductive RespBody
  | empty
  | validationFailed (timestamp : Nat)
  | created (id secret : String)
  | postJson (id title content : String) (created_at updated_at : Nat)
  | html (page : String)
  | errObj (message code : String) (timestamp : Nat)
  | errObjNoTs (message code : String)
  | health (timestamp : Nat)
deriving DecidableEq, Repr

/-- An HTTP response: status code and JSON body. -/
structure Resp where
  status : Nat
  body : RespBody
deriving DecidableEq, Repr

/-- The `CustomError` interface of `middleware/errorHandler.ts`: a thrown
error with optional `statusCode` and `code` fields. -/
structure CustomError where
  message : String
  statusCode : Option Nat
  code : Option String
deriving DecidableEq, Repr

/-- `createError(message, statusCode)` from `middleware/errorHandler.ts`
(no `code` argument is ever passed by `routes/posts.ts`). -/
def createError (message : String) (statusCode : Nat) : CustomError :=
  ⟨message, some statusCode, none⟩

/-- `errorHandler` from `middleware/errorHandler.ts`: maps a thrown
`CustomError` to the final response.  `prod` is
`process.env.NODE_ENV === 'production'`; `now` is the request time used for
the `timestamp` field.  The `err.name === 'ValidationError'` branch is
omitted: no error constructed in this core ever carries that `name`. -/
def errorHandler (prod : Bool) (now : Nat) (e : CustomError) : Resp :=
  let statusCode0 := e.statusCode.getD 500
  let message0 := if e.message = "" then "Internal Server Error" else e.message
  let errorCode0 := e.code.getD "INTERNAL_ERROR"
  let r : Nat × String × String :=
    if e.code = some "SQLITE_CONSTRAINT" then
      (409, "Resource conflict", "RESOURCE_CONFLICT")
    else if e.code = some "ENOENT" then
      (404, "Resource not found", "RESOURCE_NOT_FOUND")
    else if e.code = some "MISSING_API_TOKEN_CONFIG" then
      (500, "Server configuration error", "MISSING_API_TOKEN_CONFIG")
    else if e.code = some "INVALID_API_TOKEN" then
      (401, "Invalid API token", "INVALID_API_TOKEN")
    else if e.code = some "MISSING_AUTHORIZATION" then
      (401, "Authorization header is required", "MISSING_AUTHORIZATION")
    else if e.code = some "INVALID_AUTHORIZATION_FORMAT" then
      (401, "Invalid Authorization header format", "INVALID_AUTHORIZATION_FORMAT")
    else
      (statusCode0, message0, errorCode0)
  if prod = true ∧ 500 ≤ r.1 then
    ⟨r.1, .errObj "Internal Server Error" "INTERNAL_ERROR" now⟩
  else
    ⟨r.1, .errObj r.2.1 r.2.2 now⟩

/-- The validator chain `createPostValidation`: title 1..200 characters and
content 1..100000 characters, measured on the raw request values (the
`trim`/`escape` sanitizers run after `isLength` in the chain). -/
def createValid (title content : String) : Bool :=
  lenBetween title 1 200 && lenBetween content 1 100000

/-- The validator chain `updatePostValidation`: id exactly 8 characters,
secret a UUID-v4, and the title/content bounds of `createPostValidation`. -/
def updateValid (id secret title content : String) : Bool :=
  lenBetween id 8 8 && IDGenerator.isValidSecret secret &&
    lenBetween title 1 200 && lenBetween content 1 100000

/-- The validator chain `deletePostValidation`. -/
def deleteValid (id secret : String) : Bool :=
  lenBetween id 8 8 && IDGenerator.isValidSecret secret

/-- The validator chain `getPostValidation`. -/
def getValid (id : String) : Bool := lenBetween id 8 8

/-- `POST /` from `routes/posts.ts`.  `gen i` is the id that the `i`-th
`IDGenerator.generate()` call of this request returns (the `Math.random`
draws made explicit) and `secret` is this request's `uuidv4()` draw.
`storeAtCheck` is the table as seen by the `postModel.exists` closure
inside `generateUnique`, and `storeAtInsert` the table as seen by
`postModel.create`; in a race-free run the two coincide, and they differ
exactly when a concurrent create commits between the existence check and
the `INSERT` (the check-then-insert window of the route).  Returns the
table after the request and the response. -/
def postCreate (prod : Bool) (now : Nat) (gen : Nat → String) (secret : String)
    (storeAtCheck storeAtInsert : List Post) (title content : String) :
    List Post × Resp :=
  if !(createValid title content) then
    (storeAtInsert, ⟨400, .validationFailed now⟩)
  else
    match IDGenerator.generateUniqueE gen
        (fun id => PostModel.existsId storeAtCheck id) 10 with
    | .error msg =>
      -- the route's try/catch forwards the plain `Error` (no statusCode,
      -- no code) to `errorHandler`
      (storeAtInsert, errorHandler prod now ⟨msg, none, none⟩)
    | .ok id =>
      match PostModel.create now storeAtInsert id secret
          (sanitizeTitle title) (sanitizeContent content) with
      | .error .sqliteConstraint =>
        -- sqlite rejects the INSERT; the error carries
        -- `code = 'SQLITE_CONSTRAINT'` and reaches `errorHandler`
        (storeAtInsert,
          errorHandler prod now
            ⟨"SQLITE_CONSTRAINT: UNIQUE constraint failed: posts.id",
              none, some "SQLITE_CONSTRAINT"⟩)
      | .ok (store2, p) =>
        (store2, ⟨201, .created p.id secret⟩)

/-- `GET /:id` from `routes/posts.ts`.  `render` abstracts
`markdownRenderer.renderToHtml`, which is a function of the found post
(markdown-it rendering plus the fixed HTML template); `acceptJson` is
whether the `Accept` header includes `application/json`.  The route never
mutates the table, so only the response is returned. -/
def getPost (prod : Bool) (now : Nat) (render : Post → String)
    (store : List Post) (id : String) (acceptJson : Bool) : Resp :=
  if !(getValid id) then
    ⟨400, .validationFailed now⟩
  else if !(IDGenerator.isValidFormat id) then
    errorHandler prod now (createError "Invalid post ID format" 400)
  else
    match PostModel.findById store id with
    | none => errorHandler prod now (createError "Post not found" 404)
    | some p =>
      if acceptJson then
        ⟨200, .postJson p.id p.title p.content p.created_at p.updated_at⟩
      else
        ⟨200, .html (render p)⟩

/-- `PUT /:id` from `routes/posts.ts`.  Returns the table after the request
and the response. -/
def putPost (prod : Bool) (now : Nat) (store : List Post)
    (id secret title content : String) : List Post × Resp :=
  if !(updateValid id secret title content) then
    (store, ⟨400, .validationFailed now⟩)
  else if !(IDGenerator.isValidFormat id) then
    (store, errorHandler prod now (createError "Invalid post ID format" 400))
  else if !(IDGenerator.isValidSecret secret) then
    (store, errorHandler prod now (createError "Invalid secret format" 400))
  else
    let r := PostModel.update now store id secret
      (sanitizeTitle title) (sanitizeContent content)
    if r.2 then
      (r.1, ⟨204, .empty⟩)
    else
      (store,
        errorHandler prod now (createError "Post not found or invalid secret" 401))

/-- `DELETE /:id` from `routes/posts.ts`. -/
def deletePost (prod : Bool) (now : Nat) (store : List Post)
    (id secret : String) : List Post × Resp :=
  if !(deleteValid id secret) then
    (store, ⟨400, .validationFailed now⟩)
  else if !(IDGenerator.isValidFormat id) then
    (store, errorHandler prod now (createError "Invalid post ID format" 400))
  else if !(IDGenerator.isValidSecret secret) then
    (store, errorHandler prod now (createError "Invalid secret format" 400))
  else
    let r := PostModel.delete store id secret
    if r.2 then
      (r.1, ⟨204, .empty⟩)
    else
      (store,
        errorHandler prod now (createError "Post not found or invalid secret" 401))

/-- The constant-time token comparison loop of `requireApiToken`
(`middleware/auth.ts`): start from the length equality, then AND the byte
comparison at every position up to the longer length, padding the shorter
buffer with 0. -/
def tokensMatch (provided expected : String) : Bool :=
  let a := provided.toUTF8.toList
  let b := expected.toUTF8.toList
  let maxLength := max a.length b.length
  a.length == b.length &&
    (List.range maxLength).all (fun i => a.getD i 0 == b.getD i 0)

/-- A line terminator of JavaScript regular expressions (what `.` does not
match). -/
def isLineTerm (c : Char) : Bool :=
  c = '\n' || c = '\r' || c.val.toNat = 0x2028 || c.val.toNat = 0x2029

/-- The Bearer-token pattern of `middleware/auth.ts`, anchored at both
ends: the literal `Bearer`, one or more whitespace characters, then the
captured token (one or more non-line-terminator characters; the whitespace
run is greedy, backtracking one character when nothing is left for the
capture). -/
def parseBearer (h : String) : Option String :=
  let l := h.data
  if l.take 6 ≠ "Bearer".data then none
  else
    let rest := l.drop 6
    let ws := rest.takeWhile isJsWs
    let rem := rest.drop ws.length
    if ws.length = 0 then none
    else if rem ≠ [] then
      if rem.all (fun c => !(isLineTerm c)) then some ⟨rem⟩ else none
    else
      match ws.getLast? with
      | some c => if ws.length ≥ 2 && !(isLineTerm c) then some ⟨[c]⟩ else none
      | none => none

/-- What the `requireApiToken` middleware does with a request: send a
response without calling `next()`, or call `next()` (letting the request
reach the router). -/
inductive AuthOutcome
  | reject (resp : Resp)
  | proceed
deriving DecidableEq, Repr

/-- `requireApiToken` from `middleware/auth.ts`.  `apiToken` is
`process.env.API_TOKEN`; `authHeader` the request's `Authorization`
header.  All three rejection responses are sent directly by the middleware
(status and timestamp-less error body), before any route handler runs. -/
def requireApiToken (apiToken : Option String) (authHeader : Option String) :
    AuthOutcome :=
  match apiToken with
  | none =>
    .reject ⟨500, .errObjNoTs "Server configuration error"
      "MISSING_API_TOKEN_CONFIG"⟩
  | some tok =>
    match authHeader with
    | none =>
      .reject ⟨401, .errObjNoTs "Authorization header is required"
        "MISSING_AUTHORIZATION"⟩
    | some h =>
      match parseBearer h with
      | none =>
        .reject ⟨401, .errObjNoTs
          "Invalid Authorization header format. Expected: Bearer <token>"
          "INVALID_AUTHORIZATION_FORMAT"⟩
      | some provided =>
        if tokensMatch provided tok then .proceed
        else .reject ⟨401, .errObjNoTs "Invalid API token" "INVALID_API_TOKEN"⟩

/-- One inbound HTTP request of the server's API surface.  Every request
carries its `Authorization` header (`authHeader`). -/
inductive ApiReq
  | health
  | create (authHeader : Option String) (title content : String)
  | get (authHeader : Option String) (id : String) (acceptJson : Bool)
  | put (authHeader : Option String) (id secret title content : String)
  | del (authHeader : Option String) (id secret : String)
deriving DecidableEq, Repr

/-- The environment configuration read at process start. -/
structure Env where
  apiToken : Option String
  prod : Bool
deriving DecidableEq, Repr

/-- The request pipeline of `app.ts`: `GET /health` answered inline, then
`app.use('/', postsRouter)` dispatching to the four post routes, with
`errorHandler` mounted last.  `app.ts` mounts the posts router directly
— `requireApiToken` is exported by `middleware/auth.ts` but is not
installed on any route — so the handler below never consults
`env.apiToken` or the request's `authHeader`. -/
def appHandle (env : Env) (now : Nat) (gen : Nat → String) (secret : String)
    (render : Post → String) (store : List Post) (req : ApiReq) :
    List Post × Resp :=
  match req with
  | .health => (store, ⟨200, .health now⟩)
  | .create _ title content =>
    postCreate env.prod now gen secret store store title content
  | .get _ id acceptJson => (store, getPost env.prod now render store id acceptJson)
  | .put _ id secret2 title content => putPost env.prod now store id secret2 title content
  | .del _ id secret2 => deletePost env.prod now store id secret2

/-- Run a sequence of requests through `appHandle`, threading the table and
collecting the responses in order.  All requests of the batch share the
same environment, clock reading and randomness (sufficient for the
sequences studied here, which never create posts). -/
def appRun (env : Env) (now : Nat) (gen : Nat → String) (secret : String)
    (render : Post → String) (store : List Post) :
    List ApiReq → List Post × List Resp
  | [] => (store, [])
  | req :: reqs =>
    let r := appHandle env now gen secret render store req
    let rest := appRun env now gen secret render r.1 reqs
    (rest.1, r.2 :: rest.2)

/-! ### Helper lemmas -/

/-- The five characters named by the title-escaping property. -/
def isSpecialTitleChar (c : Char) : Bool :=
  c = '&' || c = '<' || c = '>' || c = '"' || c = '\''

theorem special_not_ws {c : Char} (h : isSpecialTitleChar c = true) :
    isJsWs c = false := by
  simp only [isSpecialTitleChar, Bool.or_eq_true, decide_eq_true_eq] at h
  rcases h with ((((h | h) | h) | h) | h) <;> subst h <;> decide

theorem escChar_ws_count (c : Char) :
    (escChar c).countP isJsWs = List.countP isJsWs [c] := by
  unfold escChar
  split_ifs <;> first | rfl | (subst_vars; decide)

theorem escChar_length_pos (c : Char) : 1 ≤ (escChar c).length := by
  unfold escChar
  split_ifs <;> simp

theorem escChar_special_length {c : Char} (h : isSpecialTitleChar c = true) :
    4 ≤ (escChar c).length := by
  simp only [isSpecialTitleChar, Bool.or_eq_true, decide_eq_true_eq] at h
  rcases h with ((((h | h) | h) | h) | h) <;> subst h <;> decide

theorem countP_escapeList (l : List Char) :
    (escapeList l).countP isJsWs = l.countP isJsWs := by
  induction l with
  | nil => rfl
  | cons c l ih =>
    have h := escChar_ws_count c
    simp only [escapeList, List.flatMap_cons, List.countP_append] at *
    rw [ih, h]
    conv_rhs => rw [show c :: l = [c] ++ l from rfl, List.countP_append]

theorem length_escapeList_ge (l : List Char) :
    l.length ≤ (escapeList l).length := by
  induction l with
  | nil => simp [escapeList]
  | cons c l ih =>
    simp only [escapeList, List.flatMap_cons, List.length_append] at *
    have := escChar_length_pos c
    simp only [List.length_cons]
    omega

theorem length_escapeList_gt {l : List Char} {c : Char} (hc : c ∈ l)
    (hs : isSpecialTitleChar c = true) : l.length < (escapeList l).length := by
  induction l with
  | nil => cases hc
  | cons a l ih =>
    simp only [escapeList, List.flatMap_cons, List.length_append, List.length_cons]
    rcases List.mem_cons.1 hc with h | h
    · subst h
      have h4 := escChar_special_length hs
      have hge := length_escapeList_ge l
      simp only [escapeList] at hge
      omega
    · have hlt := ih h
      simp only [escapeList] at hlt
      have := escChar_length_pos a
      omega

theorem ltrim_decomp (l : List Char) :
    ∃ w, (∀ c ∈ w, isJsWs c = true) ∧ l = w ++ ltrim l := by
  refine ⟨l.takeWhile isJsWs, ?_, ?_⟩
  · intro c hc; exact List.mem_takeWhile_imp hc
  · exact (List.takeWhile_append_dropWhile isJsWs l).symm

theorem rtrim_decomp (l : List Char) :
    ∃ w, (∀ c ∈ w, isJsWs c = true) ∧ l = rtrim l ++ w := by
  refine ⟨(l.reverse.takeWhile isJsWs).reverse, ?_, ?_⟩
  · intro c hc
    exact List.mem_takeWhile_imp (List.mem_reverse.1 hc)
  · have h := List.takeWhile_append_dropWhile isJsWs l.reverse
    unfold rtrim
    calc l = l.reverse.reverse := (List.reverse_reverse l).symm
    _ = (l.reverse.takeWhile isJsWs ++ l.reverse.dropWhile isJsWs).reverse := by rw [h]
    _ = (l.reverse.dropWhile isJsWs).reverse ++ (l.reverse.takeWhile isJsWs).reverse := by
          rw [List.reverse_append]

theorem jsTrim_decomp (l : List Char) :
    ∃ w₁ w₂, (∀ c ∈ w₁, isJsWs c = true) ∧ (∀ c ∈ w₂, isJsWs c = true) ∧
      l = w₁ ++ jsTrim l ++ w₂ := by
  obtain ⟨w₁, hw₁, h₁⟩ := ltrim_decomp l
  obtain ⟨w₂, hw₂, h₂⟩ := rtrim_decomp (ltrim l)
  refine ⟨w₁, w₂, hw₁, hw₂, ?_⟩
  conv_lhs => rw [h₁, h₂]
  simp [jsTrim, List.append_assoc]

/-- Core of the title round-trip property: escaping the trimmed title never
reproduces a raw title containing one of the five escaped characters. -/
theorem sanitizeTitle_ne {t : String} {c : Char} (hc : c ∈ t.data)
    (hs : isSpecialTitleChar c = true) : sanitizeTitle t ≠ t := by
  intro heq
  have hdata : escapeList (jsTrim t.data) = t.data := congrArg String.data heq
  obtain ⟨w₁, w₂, hw₁, hw₂, hdec⟩ := jsTrim_decomp t.data
  have hcount : (escapeList (jsTrim t.data)).countP isJsWs
      = (t.data).countP isJsWs := by rw [hdata]
  rw [countP_escapeList] at hcount
  have hrhs : (t.data).countP isJsWs
      = w₁.length + (jsTrim t.data).countP isJsWs + w₂.length := by
    conv_lhs => rw [hdec]
    rw [List.countP_append, List.countP_append]
    rw [List.countP_eq_length.2 hw₁, List.countP_eq_length.2 hw₂]
  have hw1nil : w₁ = [] := List.eq_nil_of_length_eq_zero (by omega)
  have hw2nil : w₂ = [] := List.eq_nil_of_length_eq_zero (by omega)
  have hts : t.data = jsTrim t.data := by
    conv_lhs => rw [hdec, hw1nil, hw2nil]
    simp
  have hc2 : c ∈ jsTrim t.data := hts ▸ hc
  have hlt := length_escapeList_gt hc2 hs
  rw [hdata, ← hts] at hlt
  omega

theorem generateUniqueFrom_allTrue (gen : Nat → String) (check : String → Bool)
    (hcheck : ∀ s, check s = true) :
    ∀ n i, IDGenerator.generateUniqueFrom gen check i n = (none, n) := by
  intro n
  induction n with
  | zero => intro i; rfl
  | succ n ih =>
    intro i
    simp [IDGenerator.generateUniqueFrom, hcheck (gen i), ih (i + 1)]

theorem generateUniqueFrom_some (gen : Nat → String) (check : String → Bool) :
    ∀ n i id, (IDGenerator.generateUniqueFrom gen check i n).1 = some id →
      ∃ k, k < n ∧ id = gen (i + k) ∧ check (gen (i + k)) = false ∧
        ∀ j, j < k → check (gen (i + j)) = true := by
  intro n
  induction n with
  | zero => intro i id h; simp [IDGenerator.generateUniqueFrom] at h
  | succ n ih =>
    intro i id h
    by_cases hc : check (gen i) = true
    · simp only [IDGenerator.generateUniqueFrom, hc, if_true] at h
      obtain ⟨k, hk, hid, hf, hall⟩ := ih (i + 1) id h
      have harith : i + (k + 1) = i + 1 + k := by omega
      refine ⟨k + 1, by omega, by rw [harith]; exact hid, by rw [harith]; exact hf, ?_⟩
      intro j hj
      cases j with
      | zero => simpa using hc
      | succ j2 =>
        have harith2 : i + (j2 + 1) = i + 1 + j2 := by omega
        rw [harith2]
        exact hall j2 (by omega)
    · have hcf : check (gen i) = false := by
        cases hcheck : check (gen i)
        · rfl
        · exact absurd hcheck hc
      simp only [IDGenerator.generateUniqueFrom, hcf, Bool.false_eq_true, if_false] at h
      refine ⟨0, by omega, ?_, ?_, ?_⟩
      · simpa using h.symm
      · simpa using hcf
      · intro j hj; omega

theorem nodup_findById {store : List Post} {id : String}
    (h : (store.map Post.id).Nodup) {q : Post} (hq : q ∈ store)
    (hqid : q.id = id) : PostModel.findById store id = some q := by
  induction store with
  | nil => cases hq
  | cons a l ih =>
    simp only [List.map_cons, List.nodup_cons] at h
    rcases List.mem_cons.1 hq with rfl | hmem
    · simp [PostModel.findById, List.find?_cons, hqid]
    · have hane : (a.id == id) = false := by
        simp only [beq_eq_false_iff_ne, ne_eq]
        intro he
        exact h.1 (he ▸ hqid ▸ List.mem_map_of_mem Post.id hmem)
      simp only [PostModel.findById, List.find?_cons, hane]
      exact ih h.2 hmem

theorem nodup_id_inj {store : List Post} (h : (store.map Post.id).Nodup)
    {p q : Post} (hp : p ∈ store) (hq : q ∈ store) (he : p.id = q.id) :
    p = q :=
  List.inj_on_of_nodup_map h hp hq he

theorem countP_rowMatch_le_one {store : List Post} (id secret : String)
    (h : (store.map Post.id).Nodup) :
    store.countP (PostModel.rowMatch id secret) ≤ 1 := by
  induction store with
  | nil => simp
  | cons a l ih =>
    simp only [List.map_cons, List.nodup_cons] at h
    rw [List.countP_cons]
    by_cases hm : PostModel.rowMatch id secret a = true
    · have haid : a.id = id := by
        simp only [PostModel.rowMatch, Bool.and_eq_true, beq_iff_eq] at hm
        exact hm.1
      have hzero : l.countP (PostModel.rowMatch id secret) = 0 := by
        rw [List.countP_eq_zero]
        intro p hp hmp
        have hpid : p.id = id := by
          simp only [PostModel.rowMatch, Bool.and_eq_true, beq_iff_eq] at hmp
          exact hmp.1
        exact h.1 (haid ▸ hpid ▸ List.mem_map_of_mem Post.id hp)
      simp [hm, hzero]
    · have hm2 : PostModel.rowMatch id secret a = false := by
        cases hx : PostModel.rowMatch id secret a
        · rfl
        · exact absurd hx hm
      have := ih h.2
      simp [hm2]
      omega

theorem findById_update (now : Nat) (store : List Post)
    (id secret title content : String) :
    PostModel.findById (PostModel.update now store id secret title content).1 id
      = (PostModel.findById store id).map (fun p =>
          if PostModel.rowMatch id secret p then
            { p with title := title, content := content, updated_at := now }
          else p) := by
  unfold PostModel.update PostModel.findById
  have hfun : ((fun p : Post => p.id == id) ∘ (fun p : Post =>
      if PostModel.rowMatch id secret p = true then
        { p with title := title, content := content, updated_at := now }
      else p)) = (fun p : Post => p.id == id) := by
    funext p
    by_cases hm : PostModel.rowMatch id secret p = true <;>
      simp [hm, Function.comp]
  rw [List.find?_map, hfun]

theorem update_any_false_of_mismatch {store : List Post} {id secret : String}
    (h : ∀ p ∈ store, p.id = id → p.secret ≠ secret) :
    store.any (PostModel.rowMatch id secret) = false := by
  rw [List.any_eq_false]
  intro p hp hm
  simp only [PostModel.rowMatch, Bool.and_eq_true, beq_iff_eq] at hm
  exact h p hp hm.1 hm.2

theorem update_any_false_of_absent {store : List Post} {id secret : String}
    (h : ∀ p ∈ store, p.id ≠ id) :
    store.any (PostModel.rowMatch id secret) = false := by
  rw [List.any_eq_false]
  intro p hp hm
  simp only [PostModel.rowMatch, Bool.and_eq_true, beq_iff_eq] at hm
  exact h p hp hm.1

theorem findById_append_new {store : List Post} {p : Post}
    (h : store.any (fun q => q.id == p.id) = false) :
    PostModel.findById (store ++ [p]) p.id = some p := by
  unfold PostModel.findById
  induction store with
  | nil => simp [List.find?]
  | cons a l ih =>
    rw [List.any_cons] at h
    have h1 : (a.id == p.id) = false := by
      cases hx : (a.id == p.id)
      · rfl
      · rw [hx] at h; simp at h
    have h2 : l.any (fun q => q.id == p.id) = false := by
      cases hx : l.any (fun q => q.id == p.id)
      · rfl
      · rw [hx] at h; simp at h
    simp only [List.cons_append, List.find?_cons, h1]
    exact ih h2

theorem errorHandler_createError_status (prod : Bool) (now : Nat)
    (m : String) (k : Nat) :
    (errorHandler prod now (createError m k)).status = k := by
  simp only [errorHandler, createError]
  split_ifs <;> simp_all

theorem errorHandler_createError_eq (prod : Bool) (now : Nat) (m : String)
    (k : Nat) (hm : m ≠ "") (hk : k < 500) :
    errorHandler prod now (createError m k)
      = ⟨k, .errObj m "INTERNAL_ERROR" now⟩ := by
  have h5 : ¬ (500 ≤ k) := by omega
  simp [errorHandler, createError, hm, h5]

theorem isValidFormat_getValid {id : String}
    (h : IDGenerator.isValidFormat id = true) : getValid id = true := by
  simp only [IDGenerator.isValidFormat, IDGenerator.ID_LENGTH,
    Bool.and_eq_true, beq_iff_eq] at h
  simp [getValid, lenBetween, h.1]

theorem putPost_204 {prod : Bool} {now : Nat} {store : List Post}
    {id secret title content : String} {s2 : List Post} {r : Resp}
    (h : putPost prod now store id secret title content = (s2, r))
    (h204 : r.status = 204) :
    IDGenerator.isValidFormat id = true ∧
    IDGenerator.isValidSecret secret = true ∧
    store.any (PostModel.rowMatch id secret) = true ∧
    s2 = (PostModel.update now store id secret (sanitizeTitle title)
      (sanitizeContent content)).1 := by
  simp only [putPost] at h
  split_ifs at h with h1 h2 h3 h4
  · rw [Prod.mk.injEq] at h
    rw [← h.2] at h204
    simp at h204
  · rw [Prod.mk.injEq] at h
    rw [← h.2, errorHandler_createError_status] at h204
    simp at h204
  · rw [Prod.mk.injEq] at h
    rw [← h.2, errorHandler_createError_status] at h204
    simp at h204
  · rw [Prod.mk.injEq] at h
    refine ⟨by simpa using h2, by simpa using h3, by simpa [PostModel.update] using h4,
      h.1.symm⟩
  · rw [Prod.mk.injEq] at h
    rw [← h.2, errorHandler_createError_status] at h204
    simp at h204

theorem deletePost_204 {prod : Bool} {now : Nat} {store : List Post}
    {id secret : String} {s2 : List Post} {r : Resp}
    (h : deletePost prod now store id secret = (s2, r))
    (h204 : r.status = 204) :
    IDGenerator.isValidFormat id = true ∧
    IDGenerator.isValidSecret secret = true ∧
    store.any (PostModel.rowMatch id secret) = true ∧
    s2 = (PostModel.delete store id secret).1 := by
  simp only [deletePost] at h
  split_ifs at h with h1 h2 h3 h4
  · rw [Prod.mk.injEq] at h
    rw [← h.2] at h204
    simp at h204
  · rw [Prod.mk.injEq] at h
    rw [← h.2, errorHandler_createError_status] at h204
    simp at h204
  · rw [Prod.mk.injEq] at h
    rw [← h.2, errorHandler_createError_status] at h204
    simp at h204
  · rw [Prod.mk.injEq] at h
    refine ⟨by simpa using h2, by simpa using h3, by simpa [PostModel.delete] using h4,
      h.1.symm⟩
  · rw [Prod.mk.injEq] at h
    rw [← h.2, errorHandler_createError_status] at h204
    simp at h204

theorem findById_delete_none {store : List Post} {id secret : String}
    (hnodup : (store.map Post.id).Nodup)
    (hdel : store.any (PostModel.rowMatch id secret) = true) :
    PostModel.findById (PostModel.delete store id secret).1 id = none := by
  obtain ⟨q, hq, hm⟩ := List.any_eq_true.1 hdel
  have hqid : q.id = id := by
    simp only [PostModel.rowMatch, Bool.and_eq_true, beq_iff_eq] at hm
    exact hm.1
  unfold PostModel.delete PostModel.findById
  rw [List.find?_eq_none]
  intro p hp hpid
  simp only [List.mem_filter] at hp
  have hpq : p = q := by
    refine nodup_id_inj hnodup hp.1 hq ?_
    rw [hqid]
    exact beq_iff_eq.1 hpid
  rw [hpq, hm] at hp
  simp at hp

theorem getPost_after_update {prod2 : Bool} {now now2 : Nat}
    {render : Post → String} {store : List Post}
    {id secret title content : String}
    (hnodup : (store.map Post.id).Nodup)
    (hfmt : IDGenerator.isValidFormat id = true)
    (hany : store.any (PostModel.rowMatch id secret) = true) :
    ∃ cAt, getPost prod2 now2 render
        (PostModel.update now store id secret (sanitizeTitle title)
          (sanitizeContent content)).1 id true
      = ⟨200, .postJson id (sanitizeTitle title) (sanitizeContent content)
          cAt now⟩ := by
  obtain ⟨q, hq, hm⟩ := List.any_eq_true.1 hany
  have hqid : q.id = id := by
    simp only [PostModel.rowMatch, Bool.and_eq_true, beq_iff_eq] at hm
    exact hm.1
  have hfind : PostModel.findById store id = some q := nodup_findById hnodup hq hqid
  have hfind2 : PostModel.findById
      (PostModel.update now store id secret (sanitizeTitle title)
        (sanitizeContent content)).1 id
      = some { q with
          title := sanitizeTitle title,
          content := sanitizeContent content,
          updated_at := now } := by
    rw [findById_update, hfind]
    simp [hm]
  refine ⟨q.created_at, ?_⟩
  have hget : getValid id = true := isValidFormat_getValid hfmt
  simp only [getPost, hget, hfmt, Bool.not_true, Bool.false_eq_true, if_false, hfind2]
  simp [hqid]

theorem getPost_after_delete {prod2 : Bool} {now2 : Nat}
    {render : Post → String} {store : List Post} {id secret : String}
    (hnodup : (store.map Post.id).Nodup)
    (hfmt : IDGenerator.isValidFormat id = true)
    (hdel : store.any (PostModel.rowMatch id secret) = true) :
    ∀ acceptJson,
      getPost prod2 now2 render (PostModel.delete store id secret).1 id acceptJson
        = ⟨404, .errObj "Post not found" "INTERNAL_ERROR" now2⟩ := by
  intro acceptJson
  have hget : getValid id = true := isValidFormat_getValid hfmt
  have hnone := findById_delete_none hnodup hdel
  simp only [getPost, hget, hfmt, Bool.not_true, Bool.false_eq_true, if_false, hnone]
  exact errorHandler_createError_eq prod2 now2 "Post not found" 404 (by decide) (by omega)

theorem errorHandler_plain_status (prod : Bool) (now : Nat) (m : String) :
    (errorHandler prod now ⟨m, none, none⟩).status = 500 := by
  simp only [errorHandler]
  split_ifs <;> simp_all

theorem errorHandler_sqlite_eq (prod : Bool) (now : Nat) (m : String) :
    errorHandler prod now ⟨m, none, some "SQLITE_CONSTRAINT"⟩
      = ⟨409, .errObj "Resource conflict" "RESOURCE_CONFLICT" now⟩ := by
  simp only [errorHandler]
  split_ifs with h1 h2 <;> simp_all

theorem postCreate_201 {prod : Bool} {now : Nat} {gen : Nat → String}
    {secret : String} {storeC storeI : List Post} {title content : String}
    {store2 : List Post} {r : Resp}
    (h : postCreate prod now gen secret storeC storeI title content = (store2, r))
    (h201 : r.status = 201) :
    createValid title content = true ∧
    ∃ id, IDGenerator.generateUniqueE gen
        (fun i => PostModel.existsId storeC i) 10 = .ok id ∧
      storeI.any (fun p => p.id == id) = false ∧
      store2 = storeI ++
        [⟨id, secret, sanitizeTitle title, sanitizeContent content, now, now⟩] ∧
      r = ⟨201, .created id secret⟩ := by
  simp only [postCreate] at h
  split_ifs at h with h1
  · rw [Prod.mk.injEq] at h
    rw [← h.2] at h201
    simp at h201
  · have hval : createValid title content = true := by
      cases hx : createValid title content
      · rw [hx] at h1; simp at h1
      · rfl
    refine ⟨hval, ?_⟩
    cases hg : IDGenerator.generateUniqueE gen
        (fun i => PostModel.existsId storeC i) 10 with
    | error msg =>
      simp only [hg] at h
      rw [Prod.mk.injEq] at h
      rw [← h.2, errorHandler_plain_status] at h201
      simp at h201
    | ok id =>
      simp only [hg] at h
      refine ⟨id, rfl, ?_⟩
      by_cases hdup : storeI.any (fun p => p.id == id) = true
      · rw [show PostModel.create now storeI id secret (sanitizeTitle title)
            (sanitizeContent content) = .error .sqliteConstraint by
          simp [PostModel.create, hdup]] at h
        rw [Prod.mk.injEq] at h
        rw [← h.2, errorHandler_sqlite_eq] at h201
        simp at h201
      · have hdup2 : storeI.any (fun p => p.id == id) = false := by
          cases hx : storeI.any (fun p => p.id == id)
          · rfl
          · exact absurd hx hdup
        rw [show PostModel.create now storeI id secret (sanitizeTitle title)
            (sanitizeContent content) = .ok (storeI ++
              [⟨id, secret, sanitizeTitle title, sanitizeContent content, now, now⟩],
              ⟨id, secret, sanitizeTitle title, sanitizeContent content, now, now⟩) by
          simp [PostModel.create, hdup2]] at h
        rw [Prod.mk.injEq] at h
        exact ⟨hdup2, h.1.symm, h.2.symm⟩

/-- An id returned by `generateUnique` is one of the generator's outputs. -/
theorem generateUniqueE_ok_gen {gen : Nat → String} {check : String → Bool}
    {n : Nat} {id : String}
    (h : IDGenerator.generateUniqueE gen check n = .ok id) :
    ∃ k, k < n ∧ id = gen k := by
  unfold IDGenerator.generateUniqueE at h
  cases hg : (IDGenerator.generateUnique gen check n).1 with
  | none => rw [hg] at h; simp at h
  | some id2 =>
    rw [hg] at h
    simp only [Except.ok.injEq] at h
    subst h
    obtain ⟨k, hk, hid, -, -⟩ := generateUniqueFrom_some gen check n 0 id2 hg
    exact ⟨k, hk, by simpa using hid⟩

/-! ### Claim theorems -/

/-- C6: For every existsCheck that always returns true, `generateUnique`
invokes existsCheck exactly the configured number of attempts (default 10)
— not more, not fewer — and then fails with the identifier-exhaustion
error; for any existsCheck, it returns the first generated id for which
existsCheck reports a miss. -/
theorem generateUnique_attempts_exact :
    (∀ (gen : Nat → String) (n : Nat),
      IDGenerator.generateUnique gen (fun _ => true) n = (none, n)) ∧
    (∀ gen : Nat → String,
      IDGenerator.generateUniqueE gen (fun _ => true) 10
        = .error "Failed to generate unique ID after 10 attempts") ∧
    (∀ (gen : Nat → String) (check : String → Bool) (n : Nat) (id : String),
      (IDGenerator.generateUnique gen check n).1 = some id →
      ∃ k, k < n ∧ id = gen k ∧ check (gen k) = false ∧
        ∀ j, j < k → check (gen j) = true) := by
  refine ⟨?_, ?_, ?_⟩
  · intro gen n
    exact generateUniqueFrom_allTrue gen _ (fun _ => rfl) n 0
  · intro gen
    unfold IDGenerator.generateUniqueE IDGenerator.generateUnique
    rw [generateUniqueFrom_allTrue gen (fun _ => true) (fun _ => rfl) 10 0]
    rfl
  · intro gen check n id h
    obtain ⟨k, hk, hid, hf, hall⟩ := generateUniqueFrom_some gen check n 0 id h
    refine ⟨k, hk, by simpa using hid, by simpa using hf, ?_⟩
    intro j hj
    simpa using hall j hj

/-- C6 witness: on the existsCheck that reports a hit exactly for the
first generated id, `generateUnique` returns the second id after two
checks, and the first-miss property instantiates concretely. -/
theorem generateUnique_attempts_exact_witness :
    ∃ k, k < 10 ∧ ("1" : String) = toString k ∧
      ((toString k == "0") : Bool) = false ∧
      ∀ j, j < k → ((toString j == "0") : Bool) = true :=
  generateUnique_attempts_exact.2.2 (fun i => toString i)
    (fun s => s == "0") 10 "1" rfl

/-- C7 counterexample: the generation alphabet `CHARS` has 55 symbols, not
the 54 the claim states (it excludes `o` and `L` in addition to the five
listed confusables). -/
theorem alphabet_size_cex :
    IDGenerator.CHARS.length = 55 ∧ ¬ IDGenerator.CHARS.length = 54 := by
  constructor
  · decide
  · decide

/-- C7 (amended): every identifier produced by `generate` consists of
exactly 8 characters drawn from the published 55-symbol alphabet
`abcdefghijkmnpqrstuvwxyzABCDEFGHJKMNPQRSTUVWXYZ23456789`, which contains
none of the confusable characters 0, O, 1, I, l (nor o, L); every generated
id passes `isValidFormat`. -/
theorem generate_id_format :
    (∀ r, (IDGenerator.generate r).length = 8 ∧
      ∀ c ∈ (IDGenerator.generate r).data, c ∈ IDGenerator.CHARS.data) ∧
    IDGenerator.CHARS
      = "abcdefghijkmnpqrstuvwxyzABCDEFGHJKMNPQRSTUVWXYZ23456789" ∧
    IDGenerator.CHARS.length = 55 ∧
    (∀ c ∈ ['0', 'O', '1', 'I', 'l', 'o', 'L'], c ∉ IDGenerator.CHARS.data) ∧
    (∀ r, IDGenerator.isValidFormat (IDGenerator.generate r) = true) := by
  have hlen : ∀ r, (IDGenerator.generate r).length = 8 := by
    intro r
    have h0 : (IDGenerator.generate r).length
        = ((List.finRange IDGenerator.ID_LENGTH).map
            (fun i => IDGenerator.CHARS.data.get (r i))).length := rfl
    rw [h0, List.length_map, List.length_finRange]
    rfl
  have hmem : ∀ r, ∀ c ∈ (IDGenerator.generate r).data,
      c ∈ IDGenerator.CHARS.data := by
    intro r c hc
    simp only [IDGenerator.generate, List.mem_map] at hc
    obtain ⟨i, -, rfl⟩ := hc
    exact IDGenerator.CHARS.data.get_mem _ _
  refine ⟨fun r => ⟨hlen r, hmem r⟩, rfl, by decide, by decide, ?_⟩
  intro r
  simp only [IDGenerator.isValidFormat, Bool.and_eq_true, beq_iff_eq]
  refine ⟨by rw [hlen r]; rfl, ?_⟩
  rw [List.all_eq_true]
  intro c hc
  simp [hmem r c hc]

/-- C7 witness: the amended statement instantiated at the all-zero draw,
whose generated id is `aaaaaaaa`. -/
theorem generate_id_format_witness :
    (IDGenerator.generate (fun _ => ⟨0, by decide⟩)).length = 8 ∧
    'a' ∈ (IDGenerator.generate (fun _ => ⟨0, by decide⟩)).data ∧
    IDGenerator.isValidFormat (IDGenerator.generate (fun _ => ⟨0, by decide⟩))
      = true := by
  refine ⟨(generate_id_format.1 (fun _ => ⟨0, by decide⟩)).1, ?_,
    generate_id_format.2.2.2.2 (fun _ => ⟨0, by decide⟩)⟩
  decide

/-- C2: For every PUT and DELETE request with a well-formed 8-character id
and a well-formed UUID-v4 secret, the two failure causes — the id exists
but the stored secret does not match, and no resource with that id exists —
produce the same observable outcome: status 401 and a byte-identical
response body (at the same request timestamp `now`). -/
theorem mutation_auth_indistinguishable
    (prod : Bool) (now : Nat) (s1 s2 : List Post)
    (id secret title content : String)
    (hfmt : IDGenerator.isValidFormat id = true)
    (hsec : IDGenerator.isValidSecret secret = true)
    (htl : lenBetween title 1 200 = true)
    (hcl : lenBetween content 1 100000 = true)
    (hexists : ∃ p ∈ s1, p.id = id)
    (hmismatch : ∀ p ∈ s1, p.id = id → p.secret ≠ secret)
    (habsent : ∀ p ∈ s2, p.id ≠ id) :
    putPost prod now s1 id secret title content
        = (s1, ⟨401, .errObj "Post not found or invalid secret"
            "INTERNAL_ERROR" now⟩) ∧
    putPost prod now s2 id secret title content
        = (s2, ⟨401, .errObj "Post not found or invalid secret"
            "INTERNAL_ERROR" now⟩) ∧
    deletePost prod now s1 id secret
        = (s1, ⟨401, .errObj "Post not found or invalid secret"
            "INTERNAL_ERROR" now⟩) ∧
    deletePost prod now s2 id secret
        = (s2, ⟨401, .errObj "Post not found or invalid secret"
            "INTERNAL_ERROR" now⟩) := by
  have hv8 : lenBetween id 8 8 = true := isValidFormat_getValid hfmt
  have huv : updateValid id secret title content = true := by
    simp [updateValid, hv8, hsec, htl, hcl]
  have hdv : deleteValid id secret = true := by
    simp [deleteValid, hv8, hsec]
  have hany1 : s1.any (PostModel.rowMatch id secret) = false :=
    update_any_false_of_mismatch hmismatch
  have hany2 : s2.any (PostModel.rowMatch id secret) = false :=
    update_any_false_of_absent habsent
  have h401 : errorHandler prod now
      (createError "Post not found or invalid secret" 401)
      = ⟨401, .errObj "Post not found or invalid secret"
          "INTERNAL_ERROR" now⟩ :=
    errorHandler_createError_eq _ _ _ _ (by decide) (by omega)
  refine ⟨?_, ?_, ?_, ?_⟩
  · simp [putPost, huv, hfmt, hsec, PostModel.update, hany1, h401]
  · simp [putPost, huv, hfmt, hsec, PostModel.update, hany2, h401]
  · simp [deletePost, hdv, hfmt, hsec, PostModel.delete, hany1, h401]
  · simp [deletePost, hdv, hfmt, hsec, PostModel.delete, hany2, h401]

/-- C2 witness: the theorem instantiated at a one-post table with a
mismatching stored secret versus the empty table. -/
theorem mutation_auth_indistinguishable_witness :
    putPost false 0
        [⟨"abcdefgh", "11111111-1111-4111-9111-111111111111", "t", "c", 0, 0⟩]
        "abcdefgh" "00000000-0000-4000-8000-000000000000" "t" "c"
      = ([⟨"abcdefgh", "11111111-1111-4111-9111-111111111111", "t", "c", 0, 0⟩],
          ⟨401, .errObj "Post not found or invalid secret"
            "INTERNAL_ERROR" 0⟩) ∧
    putPost false 0 [] "abcdefgh" "00000000-0000-4000-8000-000000000000" "t" "c"
      = ([], ⟨401, .errObj "Post not found or invalid secret"
          "INTERNAL_ERROR" 0⟩) ∧
    deletePost false 0
        [⟨"abcdefgh", "11111111-1111-4111-9111-111111111111", "t", "c", 0, 0⟩]
        "abcdefgh" "00000000-0000-4000-8000-000000000000"
      = ([⟨"abcdefgh", "11111111-1111-4111-9111-111111111111", "t", "c", 0, 0⟩],
          ⟨401, .errObj "Post not found or invalid secret"
            "INTERNAL_ERROR" 0⟩) ∧
    deletePost false 0 [] "abcdefgh" "00000000-0000-4000-8000-000000000000"
      = ([], ⟨401, .errObj "Post not found or invalid secret"
          "INTERNAL_ERROR" 0⟩) :=
  mutation_auth_indistinguishable false 0
    [⟨"abcdefgh", "11111111-1111-4111-9111-111111111111", "t", "c", 0, 0⟩] []
    "abcdefgh" "00000000-0000-4000-8000-000000000000" "t" "c"
    (by decide) (by decide) (by decide) (by decide)
    (by decide) (by decide) (by decide)

/-- C1 (code bug in the source): the claim requires every API request to
carry a bearer service credential, with a missing `Authorization` header
rejected by the missing-credential error before any lifecycle processing.
`middleware/auth.ts` implements exactly that rejection (second conjunct),
but `app.ts` mounts the posts router without it, so a `POST /` with no
`Authorization` header is fully processed: the post is created and `201`
is returned (first conjunct, evaluated at the failing input). -/
theorem create_without_auth_is_processed :
    (∀ render : Post → String,
      appHandle ⟨some "configured-api-token-0123456789ab", true⟩ 0
          (fun _ => "aaaaaaaa") "123e4567-e89b-42d3-a456-426614174000" render []
          (.create none "T" "C")
        = ([⟨"aaaaaaaa", "123e4567-e89b-42d3-a456-426614174000", "T", "C", 0, 0⟩],
            ⟨201, .created "aaaaaaaa" "123e4567-e89b-42d3-a456-426614174000"⟩)) ∧
    (∀ tok : String,
      requireApiToken (some tok) none
        = .reject ⟨401, .errObjNoTs "Authorization header is required"
            "MISSING_AUTHORIZATION"⟩) := by
  constructor
  · intro render
    rfl
  · intro tok
    rfl

/-- C5 counterexample: when the insert hits the uniqueness constraint
(here: the existence check ran against a table not yet containing the id,
and a concurrent create committed the same id before the `INSERT`), the
route does not retry with a fresh id — it surfaces the storage error to
the caller as `409 RESOURCE_CONFLICT`, contradicting the claim that the
violation is handled like an existsCheck hit. -/
theorem insert_conflict_not_retried_cex :
    postCreate false 0 (fun _ => "aaaaaaaa")
        "123e4567-e89b-42d3-a456-426614174000" []
        [⟨"aaaaaaaa", "99999999-9999-4999-9999-999999999999", "t", "c", 0, 0⟩]
        "T" "C"
      = ([⟨"aaaaaaaa", "99999999-9999-4999-9999-999999999999", "t", "c", 0, 0⟩],
          ⟨409, .errObj "Resource conflict" "RESOURCE_CONFLICT" 0⟩) := by
  rfl

/-- C5 (amended): a uniqueness-constraint violation raised by the store at
insert time is not retried: whenever the id chosen by `generateUnique`
already exists in the table seen by the `INSERT`, the create route
propagates the storage error to the error handler, which answers
`409 RESOURCE_CONFLICT`, and the table is unchanged.  Only existsCheck
hits inside `generateUnique` are retried. -/
theorem insert_conflict_surfaces_409
    (prod : Bool) (now : Nat) (gen : Nat → String) (secret : String)
    (storeAtCheck storeAtInsert : List Post) (title content : String)
    (id : String)
    (hval : createValid title content = true)
    (hgen : IDGenerator.generateUniqueE gen
      (fun i => PostModel.existsId storeAtCheck i) 10 = .ok id)
    (hdup : storeAtInsert.any (fun p => p.id == id) = true) :
    postCreate prod now gen secret storeAtCheck storeAtInsert title content
      = (storeAtInsert,
          ⟨409, .errObj "Resource conflict" "RESOURCE_CONFLICT" now⟩) := by
  have hv : (!(createValid title content)) = false := by rw [hval]; rfl
  simp only [postCreate, hv, Bool.false_eq_true, if_false, hgen]
  rw [show PostModel.create now storeAtInsert id secret (sanitizeTitle title)
      (sanitizeContent content) = .error .sqliteConstraint by
    simp [PostModel.create, hdup]]
  rw [errorHandler_sqlite_eq]

/-- C5 witness: the amended statement instantiated at a concrete raced
create. -/
theorem insert_conflict_surfaces_409_witness :
    postCreate false 3 (fun _ => "bbbbbbbb")
        "123e4567-e89b-42d3-a456-426614174000" []
        [⟨"bbbbbbbb", "99999999-9999-4999-9999-999999999999", "t", "c", 0, 0⟩]
        "T" "C"
      = ([⟨"bbbbbbbb", "99999999-9999-4999-9999-999999999999", "t", "c", 0, 0⟩],
          ⟨409, .errObj "Resource conflict" "RESOURCE_CONFLICT" 3⟩) :=
  insert_conflict_surfaces_409 false 3 (fun _ => "bbbbbbbb")
    "123e4567-e89b-42d3-a456-426614174000" []
    [⟨"bbbbbbbb", "99999999-9999-4999-9999-999999999999", "t", "c", 0, 0⟩]
    "T" "C" "bbbbbbbb" (by decide) rfl (by decide)

/-- C9 counterexample: the server keeps no rate-limit state, so the sixth
failed authentication attempt within any window from one caller — here six
identical `PUT` requests guessing a wrong resource secret, carrying a wrong
bearer token — receives exactly the same `401` response as the first, not
`429`. -/
theorem sixth_failed_attempt_not_429_cex :
    (appRun ⟨some "server-api-token-0123456789abcdef", true⟩ 0
        (fun _ => "aaaaaaaa") "123e4567-e89b-42d3-a456-426614174000"
        (fun p => p.title)
        [⟨"abcdefgh", "11111111-1111-4111-9111-111111111111", "t", "c", 0, 0⟩]
        (List.replicate 6 (ApiReq.put (some "Bearer wrong-guess") "abcdefgh"
          "00000000-0000-4000-8000-000000000000" "t2" "c2"))).2
      = List.replicate 6
          ⟨401, .errObj "Post not found or invalid secret"
            "INTERNAL_ERROR" 0⟩ ∧
    ((appRun ⟨some "server-api-token-0123456789abcdef", true⟩ 0
        (fun _ => "aaaaaaaa") "123e4567-e89b-42d3-a456-426614174000"
        (fun p => p.title)
        [⟨"abcdefgh", "11111111-1111-4111-9111-111111111111", "t", "c", 0, 0⟩]
        (List.replicate 6 (ApiReq.put (some "Bearer wrong-guess") "abcdefgh"
          "00000000-0000-4000-8000-000000000000" "t2" "c2"))).2.getD 5
        ⟨0, .empty⟩).status ≠ 429 := by
  constructor
  · rfl
  · decide

/-- C9 (amended): the middleware stack of `app.ts` contains no rate
limiter, so responses are independent of request history: any request that
leaves the table unchanged (in particular a failed authentication attempt)
receives the identical response no matter how many identical attempts
preceded it — the sixth failed attempt is answered exactly like the first,
never `429`. -/
theorem no_rate_limiting
    (env : Env) (now : Nat) (gen : Nat → String) (secret : String)
    (render : Post → String) (store : List Post) (req : ApiReq) (r : Resp)
    (hsame : appHandle env now gen secret render store req = (store, r)) :
    ∀ n, appRun env now gen secret render store (List.replicate n req)
      = (store, List.replicate n r) := by
  intro n
  induction n with
  | zero => rfl
  | succ n ih =>
    simp only [List.replicate_succ, appRun, hsame, ih]

/-- C9 witness: the amended statement at the six-request run of the
counterexample. -/
theorem no_rate_limiting_witness :
    appRun ⟨some "server-api-token-0123456789abcdef", true⟩ 0
        (fun _ => "aaaaaaaa") "123e4567-e89b-42d3-a456-426614174000"
        (fun p => p.title)
        [⟨"abcdefgh", "11111111-1111-4111-9111-111111111111", "t", "c", 0, 0⟩]
        (List.replicate 6 (ApiReq.put (some "Bearer wrong-guess") "abcdefgh"
          "00000000-0000-4000-8000-000000000000" "t2" "c2"))
      = ([⟨"abcdefgh", "11111111-1111-4111-9111-111111111111", "t", "c", 0, 0⟩],
          List.replicate 6
            ⟨401, .errObj "Post not found or invalid secret"
              "INTERNAL_ERROR" 0⟩) :=
  no_rate_limiting ⟨some "server-api-token-0123456789abcdef", true⟩ 0
    (fun _ => "aaaaaaaa") "123e4567-e89b-42d3-a456-426614174000"
    (fun p => p.title)
    [⟨"abcdefgh", "11111111-1111-4111-9111-111111111111", "t", "c", 0, 0⟩]
    (ApiReq.put (some "Bearer wrong-guess") "abcdefgh"
      "00000000-0000-4000-8000-000000000000" "t2" "c2")
    ⟨401, .errObj "Post not found or invalid secret" "INTERNAL_ERROR" 0⟩
    rfl 6

/-- C3: the per-resource secret is returned only in the 201 create
response: (1) a 201 create response carries the secret; (2) a 200 JSON
read exposes exactly the found post's id, title, content and timestamps —
its body shape has no secret field; (3) the JSON read response is
invariant under arbitrary rewriting of every stored secret, so no stored
secret is retrievable through the read endpoint. -/
theorem secret_only_in_create_response
    (prod : Bool) (now : Nat) (render : Post → String) (store : List Post)
    (gen : Nat → String) (secret title content : String) :
    (∀ store2 r,
      postCreate prod now gen secret store store title content = (store2, r) →
      r.status = 201 → ∃ id, r.body = .created id secret) ∧
    (∀ id, (getPost prod now render store id true).status = 200 →
      ∃ p ∈ store, p.id = id ∧
        (getPost prod now render store id true).body
          = .postJson p.id p.title p.content p.created_at p.updated_at) ∧
    (∀ f : String → String, ∀ id,
      getPost prod now render
          (store.map (fun p => { p with secret := f p.secret })) id true
        = getPost prod now render store id true) := by
  refine ⟨?_, ?_, ?_⟩
  · intro store2 r h h201
    obtain ⟨-, id, -, -, -, hr⟩ := postCreate_201 h h201
    exact ⟨id, by rw [hr]⟩
  · intro id h200
    cases hv : getValid id with
    | false => simp [getPost, hv] at h200
    | true =>
      cases hf : IDGenerator.isValidFormat id with
      | false =>
        rw [show getPost prod now render store id true
            = errorHandler prod now (createError "Invalid post ID format" 400) by
          simp [getPost, hv, hf]] at h200
        rw [errorHandler_createError_status] at h200
        simp at h200
      | true =>
        cases hfind : PostModel.findById store id with
        | none =>
          rw [show getPost prod now render store id true
              = errorHandler prod now (createError "Post not found" 404) by
            simp [getPost, hv, hf, hfind]] at h200
          rw [errorHandler_createError_status] at h200
          simp at h200
        | some p =>
          have hres : getPost prod now render store id true
              = ⟨200, .postJson p.id p.title p.content p.created_at
                  p.updated_at⟩ := by
            simp [getPost, hv, hf, hfind]
          refine ⟨p, List.mem_of_find?_eq_some hfind, ?_, by rw [hres]⟩
          have := List.find?_some hfind
          simpa using this
  · intro f id
    have hmap : PostModel.findById
        (store.map (fun p => { p with secret := f p.secret })) id
        = (PostModel.findById store id).map
            (fun p => { p with secret := f p.secret }) := by
      unfold PostModel.findById
      have hfun : ((fun p : Post => p.id == id)
          ∘ (fun p : Post => { p with secret := f p.secret }))
          = (fun p : Post => p.id == id) := by
        funext p
        simp [Function.comp]
      rw [List.find?_map, hfun]
    simp only [getPost, hmap]
    cases PostModel.findById store id with
    | none => rfl
    | some p => rfl

/-- C3 witness: a concrete create run whose 201 body carries the secret,
a concrete JSON read exposing only the non-secret fields, and a concrete
secret-rewriting invariance. -/
theorem secret_only_in_create_response_witness :
    (∃ id, (Resp.mk 201
        (.created "aaaaaaaa" "123e4567-e89b-42d3-a456-426614174000")).body
      = .created id "123e4567-e89b-42d3-a456-426614174000") ∧
    getPost false 0 (fun p => p.title)
        (([⟨"abcdefgh", "11111111-1111-4111-9111-111111111111", "t", "c", 0, 0⟩] :
            List Post).map (fun p => { p with secret := "" }))
        "abcdefgh" true
      = getPost false 0 (fun p => p.title)
        [⟨"abcdefgh", "11111111-1111-4111-9111-111111111111", "t", "c", 0, 0⟩]
        "abcdefgh" true := by
  constructor
  · exact (secret_only_in_create_response false 0 (fun p => p.title) []
      (fun _ => "aaaaaaaa") "123e4567-e89b-42d3-a456-426614174000" "T" "C").1
      ([⟨"aaaaaaaa", "123e4567-e89b-42d3-a456-426614174000", "T", "C", 0, 0⟩] :
        List Post)
      (⟨201, .created "aaaaaaaa" "123e4567-e89b-42d3-a456-426614174000"⟩ : Resp)
      rfl rfl
  · exact (secret_only_in_create_response false 0 (fun p => p.title)
      [⟨"abcdefgh", "11111111-1111-4111-9111-111111111111", "t", "c", 0, 0⟩]
      (fun _ => "aaaaaaaa") "123e4567-e89b-42d3-a456-426614174000" "T"
      "C").2.2 (fun _ => "") "abcdefgh"

/-- C4: after an acknowledged (204) PUT, an immediately following JSON GET
of the same id returns the new (sanitized) title and content with the
write's `updated_at`; after an acknowledged (204) DELETE, an immediately
following GET of the id — for either representation kind — yields 404.
No stale pre-write representation is observable (the code has no cache:
every read consults the table). -/
theorem write_then_read_consistent
    (prod prod2 : Bool) (now now2 : Nat) (render : Post → String)
    (store : List Post) (id secret title content : String)
    (hnodup : (store.map Post.id).Nodup) :
    (∀ s2 r, putPost prod now store id secret title content = (s2, r) →
      r.status = 204 →
      ∃ cAt, getPost prod2 now2 render s2 id true
        = ⟨200, .postJson id (sanitizeTitle title) (sanitizeContent content)
            cAt now⟩) ∧
    (∀ s2 r acceptJson, deletePost prod now store id secret = (s2, r) →
      r.status = 204 →
      getPost prod2 now2 render s2 id acceptJson
        = ⟨404, .errObj "Post not found" "INTERNAL_ERROR" now2⟩) := by
  constructor
  · intro s2 r h h204
    obtain ⟨hfmt, -, hany, hs2⟩ := putPost_204 h h204
    rw [hs2]
    exact getPost_after_update hnodup hfmt hany
  · intro s2 r acceptJson h h204
    obtain ⟨hfmt, -, hany, hs2⟩ := deletePost_204 h h204
    rw [hs2]
    exact getPost_after_delete hnodup hfmt hany acceptJson

/-- C4 witness: a concrete update acknowledged with 204 whose immediate
JSON read returns the new title and content. -/
theorem write_then_read_consistent_witness :
    ∃ cAt, getPost false 9 (fun p => p.title)
        [⟨"abcdefgh", "11111111-1111-4111-9111-111111111111", "t2", "c2", 0, 5⟩]
        "abcdefgh" true
      = ⟨200, .postJson "abcdefgh" "t2" "c2" cAt 5⟩ :=
  (write_then_read_consistent false false 5 9 (fun p => p.title)
      [⟨"abcdefgh", "11111111-1111-4111-9111-111111111111", "t", "c", 0, 0⟩]
      "abcdefgh" "11111111-1111-4111-9111-111111111111" "t2" "c2"
      (by decide)).1
    [⟨"abcdefgh", "11111111-1111-4111-9111-111111111111", "t2", "c2", 0, 5⟩]
    ⟨204, .empty⟩ rfl rfl

/-- C8: a successful update rewrites only the selected row's title,
content and `updated_at`; its id, secret and `created_at` are unchanged,
every non-selected row is unchanged (the selector matches at most one row
when ids are unique), and `updated_at ≥ created_at` holds for every row
afterwards. -/
theorem update_frame_conditions
    (now : Nat) (store : List Post) (id secret title content : String)
    (hnodup : (store.map Post.id).Nodup)
    (hts : ∀ p ∈ store, p.created_at ≤ now)
    (hinv : ∀ p ∈ store, p.created_at ≤ p.updated_at) :
    List.Forall₂ (fun p q : Post =>
        q.id = p.id ∧ q.secret = p.secret ∧ q.created_at = p.created_at ∧
        (PostModel.rowMatch id secret p = true →
          q.title = title ∧ q.content = content ∧ q.updated_at = now) ∧
        (PostModel.rowMatch id secret p = false → q = p))
      store (PostModel.update now store id secret title content).1 ∧
    store.countP (PostModel.rowMatch id secret) ≤ 1 ∧
    ∀ q ∈ (PostModel.update now store id secret title content).1,
      q.created_at ≤ q.updated_at := by
  refine ⟨?_, countP_rowMatch_le_one id secret hnodup, ?_⟩
  · show List.Forall₂ _ store (store.map _)
    rw [List.forall₂_map_right_iff, List.forall₂_same]
    intro p hp
    by_cases hm : PostModel.rowMatch id secret p = true
    · simp [hm]
    · have hm2 : PostModel.rowMatch id secret p = false := by
        cases hx : PostModel.rowMatch id secret p
        · rfl
        · exact absurd hx hm
      simp [hm2]
  · intro q hq
    simp only [PostModel.update, List.mem_map] at hq
    obtain ⟨p, hp, rfl⟩ := hq
    by_cases hm : PostModel.rowMatch id secret p = true
    · simp only [hm, if_true]
      exact hts p hp
    · have hm2 : PostModel.rowMatch id secret p = false := by
        cases hx : PostModel.rowMatch id secret p
        · rfl
        · exact absurd hx hm
      simp only [hm2, Bool.false_eq_true, if_false]
      exact hinv p hp

/-- C8 witness: the frame statement instantiated at a two-row table where
the first row is selected. -/
theorem update_frame_conditions_witness :
    List.Forall₂ (fun p q : Post =>
        q.id = p.id ∧ q.secret = p.secret ∧ q.created_at = p.created_at ∧
        (PostModel.rowMatch "abcdefgh"
            "11111111-1111-4111-9111-111111111111" p = true →
          q.title = "T2" ∧ q.content = "C2" ∧ q.updated_at = 7) ∧
        (PostModel.rowMatch "abcdefgh"
            "11111111-1111-4111-9111-111111111111" p = false → q = p))
      [⟨"abcdefgh", "11111111-1111-4111-9111-111111111111", "t", "c", 3, 4⟩,
        ⟨"zzzzzzzz", "22222222-2222-4222-a222-222222222222", "u", "d", 1, 2⟩]
      (PostModel.update 7
        [⟨"abcdefgh", "11111111-1111-4111-9111-111111111111", "t", "c", 3, 4⟩,
          ⟨"zzzzzzzz", "22222222-2222-4222-a222-222222222222", "u", "d", 1, 2⟩]
        "abcdefgh" "11111111-1111-4111-9111-111111111111" "T2" "C2").1 ∧
    ([⟨"abcdefgh", "11111111-1111-4111-9111-111111111111", "t", "c", 3, 4⟩,
        ⟨"zzzzzzzz", "22222222-2222-4222-a222-222222222222", "u", "d", 1, 2⟩].countP
      (PostModel.rowMatch "abcdefgh" "11111111-1111-4111-9111-111111111111"))
      ≤ 1 ∧
    ∀ q ∈ (PostModel.update 7
        [⟨"abcdefgh", "11111111-1111-4111-9111-111111111111", "t", "c", 3, 4⟩,
          ⟨"zzzzzzzz", "22222222-2222-4222-a222-222222222222", "u", "d", 1, 2⟩]
        "abcdefgh" "11111111-1111-4111-9111-111111111111" "T2" "C2").1,
      q.created_at ≤ q.updated_at :=
  update_frame_conditions 7
    [⟨"abcdefgh", "11111111-1111-4111-9111-111111111111", "t", "c", 3, 4⟩,
      ⟨"zzzzzzzz", "22222222-2222-4222-a222-222222222222", "u", "d", 1, 2⟩]
    "abcdefgh" "11111111-1111-4111-9111-111111111111" "T2" "C2"
    (by decide) (by decide) (by decide)

/-- C10 (implicit claim): create passes the title through HTML-entity
escaping during validation, so for any title containing one of `&`, `<`,
`>`, `"`, `'`, the stored title — and the title returned by a subsequent
JSON GET of the created id — is the escaped entity form, which differs
from the submitted text: the create-then-read round trip does not return
the original title. -/
theorem title_escape_roundtrip
    (prod : Bool) (now : Nat) (gen : Nat → String) (secret : String)
    (render : Post → String) (store : List Post) (title content : String)
    (hgen : ∀ i, IDGenerator.isValidFormat (gen i) = true)
    (hsp : ∃ c ∈ title.data, isSpecialTitleChar c = true) :
    ∀ store2 r,
      postCreate prod now gen secret store store title content = (store2, r) →
      r.status = 201 →
      ∃ p : Post, store2 = store ++ [p] ∧
        p.title = sanitizeTitle title ∧ p.title ≠ title ∧
        getPost prod now render store2 p.id true
          = ⟨200, .postJson p.id (sanitizeTitle title)
              (sanitizeContent content) p.created_at p.updated_at⟩ := by
  intro store2 r h h201
  obtain ⟨-, id, hgenE, hdup, hs2, -⟩ := postCreate_201 h h201
  obtain ⟨c, hc, hcs⟩ := hsp
  refine ⟨⟨id, secret, sanitizeTitle title, sanitizeContent content, now, now⟩,
    hs2, rfl, sanitizeTitle_ne hc hcs, ?_⟩
  obtain ⟨k, -, hid⟩ := generateUniqueE_ok_gen hgenE
  have hfmt : IDGenerator.isValidFormat id = true := by
    rw [hid]; exact hgen k
  have hget : getValid id = true := isValidFormat_getValid hfmt
  have hfind : PostModel.findById (store ++
      [⟨id, secret, sanitizeTitle title, sanitizeContent content, now, now⟩]) id
      = some ⟨id, secret, sanitizeTitle title, sanitizeContent content,
          now, now⟩ := findById_append_new hdup
  rw [hs2]
  simp [getPost, hget, hfmt, hfind]

/-- C10 witness: creating a post titled `a&b` stores and returns the
escaped title `a&amp;b`, not the submitted text. -/
theorem title_escape_roundtrip_witness :
    ∃ p : Post,
      [(⟨"aaaaaaaa", "123e4567-e89b-42d3-a456-426614174000", "a&amp;b", "c",
          0, 0⟩ : Post)] = [] ++ [p] ∧
      p.title = sanitizeTitle "a&b" ∧ p.title ≠ "a&b" ∧
      getPost false 0 (fun q => q.title)
          [(⟨"aaaaaaaa", "123e4567-e89b-42d3-a456-426614174000", "a&amp;b",
              "c", 0, 0⟩ : Post)] p.id true
        = ⟨200, .postJson p.id (sanitizeTitle "a&b") (sanitizeContent "c")
            p.created_at p.updated_at⟩ :=
  title_escape_roundtrip false 0 (fun _ => "aaaaaaaa")
    "123e4567-e89b-42d3-a456-426614174000" (fun q => q.title) [] "a&b" "c"
    (fun _ => rfl) ⟨'&', by decide, by decide⟩
    [⟨"aaaaaaaa", "123e4567-e89b-42d3-a456-426614174000", "a&amp;b", "c", 0, 0⟩]
    ⟨201, .created "aaaaaaaa" "123e4567-e89b-42d3-a456-426614174000"⟩
    rfl rfl

end Pub
